import Mathlib

/-!
Shallow embedding of `storm_control/hal4000/camera/camera.py`: the per-camera
message-driven controller `Camera` and its `processMessage` dispatch.

Modelling conventions:
* A `ParameterSet` object at runtime is a reference (`Nat` index) into a heap
  of parameter contents; `copy()` allocates a fresh cell, so aliasing versus
  deep-copying is observable, as required to state the snapshot claims.
* The device driver (`cameraControl`, not part of the analysed source) is
  modelled from the spec as a `paramsRef` into the heap plus a fixed
  `CameraFunctionality`; each driver call is recorded in an effect log,
  tagged with whether it ran inside a scoped worker task
  (`halModule.runWorkerTask`) or synchronously on the dispatch path.
* The scoped-task runner is sequentialised: per the spec's ordering contract,
  a task scheduled for a message completes before any response append the
  handler placed after it, so running the task body inline is faithful.
-/

namespace StormControl

/-- Opaque content of one `ParameterSet` (sub-)tree. The claims never inspect
inside a parameter tree, only compare snapshots, so the content is abstract. -/
abbrev ParamData := Nat

/-- Heap of live `ParameterSet` objects; a runtime `ParameterSet` value is an
index into this list. -/
abbrev Heap := List ParamData

/-- Read the content of the parameter-set object at reference `r`. -/
def heapGet (h : Heap) (r : Nat) : ParamData := h.getD r 0

/-- Overwrite (mutate in place) the parameter-set object at reference `r`. -/
def heapSet (h : Heap) (r : Nat) (v : ParamData) : Heap := h.set r v

/-- `ParameterSet.copy()`: allocate a fresh, independent cell holding `v`;
returns the extended heap and the new reference. -/
def alloc (h : Heap) (v : ParamData) : Heap × Nat := (h ++ [v], h.length)

/-- The capability handle for one camera/feed: stable identity and time base
(`cameraFunctionality.CameraFunctionality`). -/
structure CameraFunctionality where
  camera_name : String
  time_base : String
deriving DecidableEq, Repr

/-- `CameraFunctionality.getTimeBase()`. -/
def CameraFunctionality.getTimeBase (cf : CameraFunctionality) : String :=
  cf.time_base

/-- Film settings carried by a "start film" message, exposing
`isFixedLength()` and `getFilmLength()`. -/
structure FilmSettings where
  fixed_length : Bool
  frames : Nat
deriving DecidableEq, Repr

/-- `FilmSettings.isFixedLength()`. -/
def FilmSettings.isFixedLength (fs : FilmSettings) : Bool := fs.fixed_length

/-- `FilmSettings.getFilmLength()`. -/
def FilmSettings.getFilmLength (fs : FilmSettings) : Nat := fs.frames

/-- Modelled from the spec: the device driver (`cameraControl`, outside the
analysed source). It owns the live `ParameterSet` (`paramsRef` into the heap)
and the immutable `CameraFunctionality` it hands out. -/
structure CameraControl where
  paramsRef : Nat
  functionality : CameraFunctionality
deriving DecidableEq, Repr

/-- Modelled from the spec: `cameraControl.newParameters(p)` applies the
supplied sub-tree, mutating the driver's live parameter object in place. -/
def CameraControl.newParameters (cc : CameraControl) (h : Heap) (p : ParamData) : Heap :=
  heapSet h cc.paramsRef p

/-- The controller state of `camera.Camera`: its module name (identity), the
single mutable field `film_length`, and its exclusively owned driver. -/
structure Camera where
  module_name : String
  film_length : Option Nat
  camera_control : CameraControl
deriving DecidableEq, Repr

/-- A full parameter set as carried by a "new parameters" payload: sub-trees
keyed by module name, supporting `get(name)`. -/
abbrev ParameterSet := List (String × ParamData)

/-- `ParameterSet.get(name)`: sub-tree lookup; fails (`none`) when the name is
absent. -/
def pget (ps : ParameterSet) (name : String) : Option ParamData :=
  match ps with
  | [] => none
  | (k, v) :: rest => if k = name then some v else pget rest name

/-- The bus messages `Camera.processMessage` dispatches on, each with the
payload fields the handler reads. `unhandled t` stands for any message whose
type string `t` matches none of the nine handled branches. -/
inductive HalMessage where
  | configure1 : HalMessage
  | filmTiming (functionality : CameraFunctionality) : HalMessage
  | getCameraFunctionality (camera : String) : HalMessage
  | newParameters (parameters : ParameterSet) : HalMessage
  | shutterClicked (camera : String) : HalMessage
  | startCamera (camera : String) : HalMessage
  | startFilm (film_settings : FilmSettings) : HalMessage
  | stopCamera (camera : String) : HalMessage
  | stopFilm : HalMessage
  | unhandled (m_type : String) : HalMessage
deriving DecidableEq, Repr

/-- The `m_type` string of a message, as tested by `message.isType(...)`. -/
def HalMessage.mType : HalMessage → String
  | .configure1 => "configure1"
  | .filmTiming _ => "film timing"
  | .getCameraFunctionality _ => "get camera functionality"
  | .newParameters _ => "new parameters"
  | .shutterClicked _ => "shutter clicked"
  | .startCamera _ => "start camera"
  | .startFilm _ => "start film"
  | .stopCamera _ => "stop camera"
  | .stopFilm => "stop film"
  | .unhandled t => t

/-- The nine message types `processMessage` has a branch for. -/
def handledTypes : List String :=
  ["configure1", "film timing", "get camera functionality", "new parameters",
   "shutter clicked", "start camera", "start film", "stop camera", "stop film"]

/-- One call into the device driver, with its argument. -/
inductive DriverOp where
  | getParameters : DriverOp
  | newParameters (p : ParamData) : DriverOp
  | getCameraFunctionality : DriverOp
  | setFilmLength (n : Nat) : DriverOp
  | startCamera : DriverOp
  | stopCamera : DriverOp
  | stopFilm : DriverOp
  | toggleShutter : DriverOp
deriving DecidableEq, Repr

/-- The data dictionary of one `HalMessageResponse`, keyed as in the source. -/
inductive RespData where
  | functionality (cf : CameraFunctionality) : RespData
  | oldParameters (r : Nat) : RespData
  | newParameters (r : Nat) : RespData
  | parameters (r : Nat) : RespData
deriving DecidableEq, Repr

/-- Observable effects of handling one message: responses appended to it (in
order, with their source), messages emitted on the bus (type string and the
parameter reference carried), driver calls (tagged `true` when made inside a
scoped worker task), and the number of scoped tasks scheduled. -/
structure Effects where
  responses : List (String × RespData)
  emits : List (String × Nat)
  calls : List (DriverOp × Bool)
  tasks : Nat
deriving DecidableEq, Repr

/-- No observable effect. -/
def noEffects : Effects := ⟨[], [], [], 0⟩

/-- Result of one `processMessage` dispatch: updated controller, updated heap,
and the effect log. -/
structure StepResult where
  cam : Camera
  heap : Heap
  eff : Effects
deriving DecidableEq, Repr

/-- `Camera.processMessage(message)`, branch by branch from the source.
The "new parameters" branch inlines `Camera.updateParameters`: append the
"old parameters" response holding `getParameters().copy()`, look up the
sub-tree for this module, call the driver's `newParameters`, then append the
"new parameters" response holding `getParameters()` (the live reference).
When the sub-tree lookup fails the worker task dies after the first append,
so only that response and the first driver call are recorded. -/
def Camera.processMessage (cam : Camera) (h : Heap) (msg : HalMessage) : StepResult :=
  match msg with
  | .configure1 =>
      ⟨cam, h, ⟨[], [("initial parameters", cam.camera_control.paramsRef)],
                [(.getParameters, false)], 0⟩⟩
  | .filmTiming fn =>
      if fn.getTimeBase = cam.module_name then
        match cam.film_length with
        | some n => ⟨cam, h, ⟨[], [], [(.setFilmLength n, true)], 1⟩⟩
        | none => ⟨cam, h, noEffects⟩
      else ⟨cam, h, noEffects⟩
  | .getCameraFunctionality c =>
      if c = cam.module_name then
        ⟨cam, h, ⟨[(cam.module_name, .functionality cam.camera_control.functionality)],
                  [], [(.getCameraFunctionality, false)], 0⟩⟩
      else ⟨cam, h, noEffects⟩
  | .newParameters ps =>
      let live := heapGet h cam.camera_control.paramsRef
      let ha := alloc h live
      match pget ps cam.module_name with
      | some p =>
          ⟨cam, cam.camera_control.newParameters ha.1 p,
            ⟨[(cam.module_name, .oldParameters ha.2),
              (cam.module_name, RespData.newParameters cam.camera_control.paramsRef)],
             [],
             [(.getParameters, true), (DriverOp.newParameters p, true),
              (.getParameters, true)], 1⟩⟩
      | none =>
          ⟨cam, ha.1,
            ⟨[(cam.module_name, .oldParameters ha.2)], [],
             [(.getParameters, true)], 1⟩⟩
  | .shutterClicked c =>
      if c = cam.module_name then ⟨cam, h, ⟨[], [], [(.toggleShutter, true)], 1⟩⟩
      else ⟨cam, h, noEffects⟩
  | .startCamera c =>
      if c = cam.module_name then ⟨cam, h, ⟨[], [], [(DriverOp.startCamera, true)], 1⟩⟩
      else ⟨cam, h, noEffects⟩
  | .startFilm fs =>
      if fs.isFixedLength then
        ⟨⟨cam.module_name, some fs.getFilmLength, cam.camera_control⟩, h, noEffects⟩
      else ⟨cam, h, noEffects⟩
  | .stopCamera c =>
      if c = cam.module_name then ⟨cam, h, ⟨[], [], [(DriverOp.stopCamera, true)], 1⟩⟩
      else ⟨cam, h, noEffects⟩
  | .stopFilm =>
      ⟨⟨cam.module_name, none, cam.camera_control⟩, h,
        ⟨[(cam.module_name, .parameters cam.camera_control.paramsRef)], [],
         [(DriverOp.stopFilm, false), (.getParameters, false)], 0⟩⟩
  | .unhandled _ => ⟨cam, h, noEffects⟩

/-- Run a sequence of messages through one controller, threading state. -/
def runTrace (cam : Camera) (h : Heap) : List HalMessage → Camera × Heap
  | [] => (cam, h)
  | m :: ms =>
      let r := cam.processMessage h m
      runTrace r.cam r.heap ms

/-- The initial controller state: `film_length` starts as `None`. -/
def initCamera (name : String) (cc : CameraControl) : Camera := ⟨name, none, cc⟩

/-- The effect of one message on the `film_length` field alone. -/
def filmStep (fl : Option Nat) : HalMessage → Option Nat
  | .startFilm fs => if fs.isFixedLength then some fs.getFilmLength else fl
  | .stopFilm => none
  | _ => fl

/-- A message that leaves a pending fixed film length in force: neither a
"stop film" nor a fixed-length "start film". -/
def neutral : HalMessage → Bool
  | .startFilm fs => !fs.isFixedLength
  | .stopFilm => false
  | _ => true

/-- Film length determined by the trace read backwards: the first
film-relevant event seen is either a fixed-length "start film" (giving its
length) or a "stop film" (giving `none`). -/
def filmFromRev : List HalMessage → Option Nat
  | [] => none
  | m :: l =>
      match m with
      | .startFilm fs => if fs.isFixedLength then some fs.getFilmLength else filmFromRev l
      | .stopFilm => none
      | _ => filmFromRev l

/-- The trace `ms` currently sits strictly between a fixed-length
"start film" declaring length `n` and the next "stop film": reading the
trace backwards, a fixed-length "start film" of length `n` occurs before any
"stop film" and before any other fixed-length "start film". -/
def openFixed (ms : List HalMessage) (n : Nat) : Prop :=
  ∃ bs fs as, ms.reverse = bs ++ HalMessage.startFilm fs :: as ∧
    fs.isFixedLength = true ∧ n = fs.getFilmLength ∧ ∀ m ∈ bs, neutral m = true

/-- Recognise a `newParameters` driver call in the effect log. -/
def isNewParametersCall : DriverOp → Bool
  | DriverOp.newParameters _ => true
  | _ => false

/-- A concrete driver for witnesses: live parameters in heap cell 0. -/
def ccX : CameraControl := ⟨0, ⟨"cam1", "cam1"⟩⟩

/-- A concrete controller for witnesses: identity "cam1", no pending film. -/
def camX : Camera := ⟨"cam1", none, ccX⟩

theorem heapGet_heapSet_ne :
    ∀ (h : Heap) (r s : Nat), r ≠ s → ∀ v, heapGet (heapSet h r v) s = heapGet h s
  | [], _, _, _, _ => rfl
  | _ :: _, 0, 0, hne, _ => absurd rfl hne
  | _ :: _, 0, _ + 1, _, _ => rfl
  | _ :: _, _ + 1, 0, _, _ => rfl
  | _ :: t, r + 1, s + 1, hne, v =>
      heapGet_heapSet_ne t r s (fun hc => hne (by rw [hc])) v

theorem heapGet_heapSet_self :
    ∀ (h : Heap) (r : Nat), r < h.length → ∀ v, heapGet (heapSet h r v) r = v
  | [], _, hr, _ => absurd hr (Nat.not_lt_zero _)
  | _ :: _, 0, _, _ => rfl
  | _ :: t, r + 1, hr, v =>
      heapGet_heapSet_self t r (Nat.lt_of_succ_lt_succ hr) v

theorem heapGet_append :
    ∀ (h : Heap) (r : Nat), r < h.length → ∀ v, heapGet (h ++ [v]) r = heapGet h r
  | [], _, hr, _ => absurd hr (Nat.not_lt_zero _)
  | _ :: _, 0, _, _ => rfl
  | _ :: t, r + 1, hr, v => heapGet_append t r (Nat.lt_of_succ_lt_succ hr) v

theorem heapGet_append_self :
    ∀ (h : Heap) (v : ParamData), heapGet (h ++ [v]) h.length = v
  | [], _ => rfl
  | _ :: t, v => heapGet_append_self t v

theorem processMessage_film_length (cam : Camera) (h : Heap) (m : HalMessage) :
    (cam.processMessage h m).cam.film_length = filmStep cam.film_length m := by
  cases m with
  | configure1 => rfl
  | filmTiming fn =>
      simp only [Camera.processMessage, filmStep]
      by_cases hc : fn.getTimeBase = cam.module_name
      · rw [if_pos hc]
        cases hfl : cam.film_length <;> exact hfl
      · rw [if_neg hc]
  | getCameraFunctionality c =>
      simp only [Camera.processMessage, filmStep]
      by_cases hc : c = cam.module_name
      · rw [if_pos hc]
      · rw [if_neg hc]
  | newParameters ps =>
      simp only [Camera.processMessage, filmStep]
      cases pget ps cam.module_name <;> rfl
  | shutterClicked c =>
      simp only [Camera.processMessage, filmStep]
      by_cases hc : c = cam.module_name
      · rw [if_pos hc]
      · rw [if_neg hc]
  | startCamera c =>
      simp only [Camera.processMessage, filmStep]
      by_cases hc : c = cam.module_name
      · rw [if_pos hc]
      · rw [if_neg hc]
  | startFilm fs =>
      simp only [Camera.processMessage, filmStep]
      by_cases hfix : fs.isFixedLength = true
      · rw [if_pos hfix, if_pos hfix]
      · rw [if_neg hfix, if_neg hfix]
  | stopCamera c =>
      simp only [Camera.processMessage, filmStep]
      by_cases hc : c = cam.module_name
      · rw [if_pos hc]
      · rw [if_neg hc]
  | stopFilm => rfl
  | unhandled t => rfl

theorem runTrace_film_length (cam : Camera) (h : Heap) (ms : List HalMessage) :
    (runTrace cam h ms).1.film_length = ms.foldl filmStep cam.film_length := by
  induction ms generalizing cam h with
  | nil => rfl
  | cons m ms ih =>
      rw [List.foldl_cons, ← processMessage_film_length cam h m]
      exact ih _ _

theorem foldl_filmStep_eq_filmFromRev (ms : List HalMessage) :
    ms.foldl filmStep none = filmFromRev ms.reverse := by
  induction ms using List.reverseRecOn with
  | nil => rfl
  | append_singleton l m ih =>
      rw [List.foldl_append, List.reverse_append, List.foldl_cons, List.foldl_nil]
      cases m <;> simp [filmStep, filmFromRev, ih]

theorem neutral_no_fixed_start (m : HalMessage) (hm : neutral m = true)
    (fs : FilmSettings) (heq : m = .startFilm fs) : fs.isFixedLength = false := by
  subst heq
  simpa [neutral] using hm

theorem existsDecomp_cons_neutral (m : HalMessage) (l : List HalMessage) (n : Nat)
    (hm : neutral m = true) :
    (∃ bs fs as, m :: l = bs ++ HalMessage.startFilm fs :: as ∧
        fs.isFixedLength = true ∧ n = fs.getFilmLength ∧ ∀ x ∈ bs, neutral x = true) ↔
    (∃ bs fs as, l = bs ++ HalMessage.startFilm fs :: as ∧
        fs.isFixedLength = true ∧ n = fs.getFilmLength ∧ ∀ x ∈ bs, neutral x = true) := by
  constructor
  · rintro ⟨bs, fs, as, heq, hfix, hn, hbs⟩
    cases bs with
    | nil =>
        simp only [List.nil_append, List.cons.injEq] at heq
        have := neutral_no_fixed_start m hm fs heq.1
        rw [this] at hfix
        cases hfix
    | cons b bs =>
        simp only [List.cons_append, List.cons.injEq] at heq
        exact ⟨bs, fs, as, heq.2, hfix, hn, fun x hx => hbs x (List.mem_cons_of_mem b hx)⟩
  · rintro ⟨bs, fs, as, heq, hfix, hn, hbs⟩
    refine ⟨m :: bs, fs, as, by rw [heq, List.cons_append], hfix, hn, ?_⟩
    intro x hx
    rcases List.mem_cons.mp hx with h1 | h2
    · rw [h1]; exact hm
    · exact hbs x h2

theorem filmFromRev_cons_neutral (m : HalMessage) (l : List HalMessage)
    (hm : neutral m = true) : filmFromRev (m :: l) = filmFromRev l := by
  cases m <;> simp_all [filmFromRev, neutral]

theorem filmFromRev_eq_some (l : List HalMessage) (n : Nat) :
    filmFromRev l = some n ↔
      ∃ bs fs as, l = bs ++ HalMessage.startFilm fs :: as ∧
        fs.isFixedLength = true ∧ n = fs.getFilmLength ∧ ∀ m ∈ bs, neutral m = true := by
  induction l with
  | nil =>
      constructor
      · intro hc
        simp [filmFromRev] at hc
      · rintro ⟨bs, fs, as, habs, -⟩
        cases bs <;> simp at habs
  | cons m l ih =>
      have step : neutral m = true →
          (filmFromRev (m :: l) = some n ↔
            ∃ bs fs as, m :: l = bs ++ HalMessage.startFilm fs :: as ∧
              fs.isFixedLength = true ∧ n = fs.getFilmLength ∧
              ∀ x ∈ bs, neutral x = true) := by
        intro hm
        rw [filmFromRev_cons_neutral m l hm, ih]
        exact (existsDecomp_cons_neutral m l n hm).symm
      cases m with
      | startFilm fs =>
          cases hfix : fs.isFixedLength with
          | false => exact step (by simp [neutral, hfix])
          | true =>
              constructor
              · intro hsome
                have hv : some fs.getFilmLength = some n := by
                  simpa [filmFromRev, hfix] using hsome
                exact ⟨[], fs, l, by simp, hfix, (Option.some.inj hv).symm, by simp⟩
              · rintro ⟨bs, fs', as, heq, hfix', hn, hbs⟩
                cases bs with
                | nil =>
                    simp only [List.nil_append, List.cons.injEq] at heq
                    obtain ⟨h1, -⟩ := heq
                    cases h1
                    simp [filmFromRev, hfix, hn]
                | cons b bs =>
                    simp only [List.cons_append, List.cons.injEq] at heq
                    have hnb := hbs b (List.mem_cons_self b bs)
                    rw [← heq.1] at hnb
                    simp [neutral, hfix] at hnb
      | stopFilm =>
          constructor
          · intro hsome
            simp [filmFromRev] at hsome
          · rintro ⟨bs, fs', as, heq, hfix', hn, hbs⟩
            cases bs with
            | nil => simp at heq
            | cons b bs =>
                simp only [List.cons_append, List.cons.injEq] at heq
                have hnb := hbs b (List.mem_cons_self b bs)
                rw [← heq.1] at hnb
                simp [neutral] at hnb
      | configure1 => exact step rfl
      | filmTiming fn => exact step rfl
      | getCameraFunctionality c => exact step rfl
      | newParameters ps => exact step rfl
      | shutterClicked c => exact step rfl
      | startCamera c => exact step rfl
      | stopCamera c => exact step rfl
      | unhandled t => exact step rfl

/-- C1: processing any message sequence from the initial state, `film_length`
is `Some n` exactly when the trace sits strictly between a fixed-length
"start film" declaring `n` (the most recent such) and the next "stop film";
at every other point (equivalently: when no such open interval exists) it is
`None`. -/
theorem film_length_invariant (name : String) (cc : CameraControl) (h : Heap)
    (ms : List HalMessage) (n : Nat) :
    ((runTrace (initCamera name cc) h ms).1.film_length = some n ↔ openFixed ms n) ∧
    ((runTrace (initCamera name cc) h ms).1.film_length = none ↔
      ∀ k, ¬ openFixed ms k) := by
  have key : ∀ k, (runTrace (initCamera name cc) h ms).1.film_length = some k ↔
      openFixed ms k := by
    intro k
    rw [runTrace_film_length]
    show ms.foldl filmStep none = some k ↔ _
    rw [foldl_filmStep_eq_filmFromRev]
    exact filmFromRev_eq_some ms.reverse k
  refine ⟨key n, ?_⟩
  constructor
  · intro hnone k hk
    rw [← key k] at hk
    rw [hnone] at hk
    cases hk
  · intro hall
    cases hfl : (runTrace (initCamera name cc) h ms).1.film_length with
    | none => rfl
    | some k => exact absurd ((key k).mp hfl) (hall k)

/-- C2 counterexample: a "start film" message whose settings do not declare a
fixed length leaves a previously stored `film_length` in place — starting
from `film_length = Some 5`, it is still `Some 5` afterwards, not `None`. -/
theorem startFilm_nonfixed_counterexample :
    (Camera.processMessage ⟨"cam1", some 5, ccX⟩ [7]
        (HalMessage.startFilm ⟨false, 0⟩)).cam.film_length = some 5 ∧
    (Camera.processMessage ⟨"cam1", some 5, ccX⟩ [7]
        (HalMessage.startFilm ⟨false, 0⟩)).cam.film_length ≠ none :=
  ⟨rfl, fun hc => Option.noConfusion hc⟩

/-- C2 (amended): a "start film" message whose settings do not declare a
fixed length leaves `film_length` unchanged; in particular it remains `None`
whenever it was `None` before. -/
theorem startFilm_nonfixed_leaves_film_length (cam : Camera) (h : Heap)
    (fs : FilmSettings) (hfix : fs.isFixedLength = false) :
    (cam.processMessage h (.startFilm fs)).cam.film_length = cam.film_length ∧
    (cam.film_length = none →
      (cam.processMessage h (.startFilm fs)).cam.film_length = none) := by
  have hred : cam.processMessage h (.startFilm fs) = ⟨cam, h, noEffects⟩ := by
    simp [Camera.processMessage, hfix]
  rw [hred]
  exact ⟨rfl, fun hn => hn⟩

/-- Witness for the amended C2 at a concrete input. -/
theorem startFilm_nonfixed_leaves_film_length_witness :
    (Camera.processMessage camX [7]
        (HalMessage.startFilm ⟨false, 100⟩)).cam.film_length = none :=
  (startFilm_nonfixed_leaves_film_length camX [7] ⟨false, 100⟩ rfl).2 rfl

/-- C3: handling "new parameters" with a full set containing a sub-tree `p`
for this controller appends exactly two responses in order — first
"old parameters" holding the fresh copy (whose content equals the driver's
parameters before the apply), then "new parameters" holding the driver's
live parameters (whose content after the apply is `p`) — schedules one
scoped task, and calls the driver's `newParameters` exactly once, with
argument `p = P.get(module_name)`. -/
theorem newParameters_two_responses (cam : Camera) (h : Heap)
    (ps : ParameterSet) (p : ParamData)
    (hp : pget ps cam.module_name = some p)
    (hr : cam.camera_control.paramsRef < h.length) :
    (cam.processMessage h (.newParameters ps)).eff.responses =
      [(cam.module_name, RespData.oldParameters h.length),
       (cam.module_name, RespData.newParameters cam.camera_control.paramsRef)] ∧
    heapGet (cam.processMessage h (.newParameters ps)).heap h.length =
      heapGet h cam.camera_control.paramsRef ∧
    heapGet (cam.processMessage h (.newParameters ps)).heap
        cam.camera_control.paramsRef = p ∧
    ((cam.processMessage h (.newParameters ps)).eff.calls.filter
        fun c => isNewParametersCall c.1) = [(DriverOp.newParameters p, true)] ∧
    (cam.processMessage h (.newParameters ps)).eff.tasks = 1 := by
  have hred : cam.processMessage h (.newParameters ps) =
      ⟨cam,
       heapSet (h ++ [heapGet h cam.camera_control.paramsRef])
         cam.camera_control.paramsRef p,
       ⟨[(cam.module_name, RespData.oldParameters h.length),
         (cam.module_name, RespData.newParameters cam.camera_control.paramsRef)],
        [],
        [(DriverOp.getParameters, true), (DriverOp.newParameters p, true),
         (DriverOp.getParameters, true)], 1⟩⟩ := by
    simp [Camera.processMessage, hp, alloc, CameraControl.newParameters]
  rw [hred]
  refine ⟨rfl, ?_, ?_, ?_, rfl⟩
  · rw [heapGet_heapSet_ne _ _ _ (Nat.ne_of_lt hr) p]
    exact heapGet_append_self h _
  · exact heapGet_heapSet_self _ _
      (by rw [List.length_append]; exact Nat.lt_succ_of_lt hr) p
  · simp [List.filter, isNewParametersCall]

/-- Witness for C3 at a concrete input. -/
theorem newParameters_two_responses_witness :
    (Camera.processMessage camX [7]
        (HalMessage.newParameters [("cam1", 42)])).eff.responses =
      [("cam1", RespData.oldParameters 1), ("cam1", RespData.newParameters 0)] ∧
    heapGet (Camera.processMessage camX [7]
        (HalMessage.newParameters [("cam1", 42)])).heap 1 = heapGet [7] 0 ∧
    heapGet (Camera.processMessage camX [7]
        (HalMessage.newParameters [("cam1", 42)])).heap 0 = 42 ∧
    ((Camera.processMessage camX [7]
        (HalMessage.newParameters [("cam1", 42)])).eff.calls.filter
        fun c => isNewParametersCall c.1) = [(DriverOp.newParameters 42, true)] ∧
    (Camera.processMessage camX [7]
        (HalMessage.newParameters [("cam1", 42)])).eff.tasks = 1 :=
  newParameters_two_responses camX [7] [("cam1", 42)] 42
    (by simp [pget, camX]) (by simp [camX, ccX])

/-- C4: "stop film" always clears `film_length` to `None`, stops the driver
synchronously on the dispatch path (tagged as not inside a worker task, no
task scheduled), and appends exactly one response carrying the driver's
parameters read after the stop — for every prior state, film or no film. -/
theorem stopFilm_unconditional (cam : Camera) (h : Heap) :
    (cam.processMessage h .stopFilm).cam.film_length = none ∧
    (cam.processMessage h .stopFilm).eff.calls =
      [(DriverOp.stopFilm, false), (DriverOp.getParameters, false)] ∧
    (cam.processMessage h .stopFilm).eff.tasks = 0 ∧
    (cam.processMessage h .stopFilm).eff.responses =
      [(cam.module_name, RespData.parameters cam.camera_control.paramsRef)] ∧
    (cam.processMessage h .stopFilm).heap = h :=
  ⟨rfl, rfl, rfl, rfl, rfl⟩

/-- C5: a "film timing" message schedules exactly one scoped task calling the
driver's `setFilmLength` with the current `film_length` precisely when the
payload functionality's time base equals this controller's identity and
`film_length` is not `None`; otherwise nothing at all happens (no task, no
call, no response, no state change). -/
theorem filmTiming_schedule_iff (cam : Camera) (h : Heap)
    (fn : CameraFunctionality) :
    ((∃ n, cam.film_length = some n ∧
        (cam.processMessage h (.filmTiming fn)).eff.calls =
          [(DriverOp.setFilmLength n, true)] ∧
        (cam.processMessage h (.filmTiming fn)).eff.tasks = 1) ↔
      (fn.getTimeBase = cam.module_name ∧ cam.film_length ≠ none)) ∧
    (¬ (fn.getTimeBase = cam.module_name ∧ cam.film_length ≠ none) →
      (cam.processMessage h (.filmTiming fn)).eff = noEffects) ∧
    (cam.processMessage h (.filmTiming fn)).cam = cam ∧
    (cam.processMessage h (.filmTiming fn)).heap = h := by
  by_cases hc : fn.getTimeBase = cam.module_name
  · cases hfl : cam.film_length with
    | none =>
        have hred : cam.processMessage h (.filmTiming fn) = ⟨cam, h, noEffects⟩ := by
          simp [Camera.processMessage, hc, hfl]
        rw [hred]
        refine ⟨⟨?_, ?_⟩, fun _ => rfl, rfl, rfl⟩
        · rintro ⟨n, hn, -, -⟩
          cases hn
        · rintro ⟨-, hne⟩
          exact absurd rfl hne
    | some k =>
        have hred : cam.processMessage h (.filmTiming fn) =
            ⟨cam, h, ⟨[], [], [(DriverOp.setFilmLength k, true)], 1⟩⟩ := by
          simp [Camera.processMessage, hc, hfl]
        rw [hred]
        refine ⟨⟨fun _ => ⟨hc, fun hcon => Option.noConfusion hcon⟩,
                 fun _ => ⟨k, rfl, rfl, rfl⟩⟩, ?_, rfl, rfl⟩
        intro hno
        exact absurd ⟨hc, fun hcon => Option.noConfusion hcon⟩ hno
  · have hred : cam.processMessage h (.filmTiming fn) = ⟨cam, h, noEffects⟩ := by
      simp [Camera.processMessage, hc]
    rw [hred]
    refine ⟨⟨?_, ?_⟩, fun _ => rfl, rfl, rfl⟩
    · rintro ⟨n, -, -, htask⟩
      cases htask
    · rintro ⟨hc1, -⟩
      exact absurd hc1 hc

/-- Witness for C5: after a start film with no fixed length (so
`film_length` is `None`), a film-timing message naming this controller
produces no scheduled task and no driver call. -/
theorem filmTiming_schedule_iff_witness :
    (Camera.processMessage camX [7]
        (HalMessage.filmTiming ⟨"cam1", "cam1"⟩)).eff = noEffects :=
  (filmTiming_schedule_iff camX [7] ⟨"cam1", "cam1"⟩).2.1 (fun hc => hc.2 rfl)

/-- C6: every identity-addressed message whose camera name differs from this
controller's identity is a silent no-op (identical state, empty effects);
and "get camera functionality" addressed to this controller appends exactly
one response carrying this controller's `CameraFunctionality`. -/
theorem identity_addressing (cam : Camera) (h : Heap) (c : String) :
    (c ≠ cam.module_name →
      cam.processMessage h (.getCameraFunctionality c) = ⟨cam, h, noEffects⟩ ∧
      cam.processMessage h (.shutterClicked c) = ⟨cam, h, noEffects⟩ ∧
      cam.processMessage h (.startCamera c) = ⟨cam, h, noEffects⟩ ∧
      cam.processMessage h (.stopCamera c) = ⟨cam, h, noEffects⟩) ∧
    (c = cam.module_name →
      (cam.processMessage h (.getCameraFunctionality c)).eff.responses =
        [(cam.module_name,
          RespData.functionality cam.camera_control.functionality)]) := by
  constructor
  · intro hne
    refine ⟨?_, ?_, ?_, ?_⟩ <;> simp [Camera.processMessage, hne]
  · intro heq
    simp [Camera.processMessage, heq]

/-- Witness for C6: a mismatched "get camera functionality" is a no-op and a
matched one returns exactly this controller's functionality. -/
theorem identity_addressing_witness :
    Camera.processMessage camX [7] (.getCameraFunctionality "cam2") =
      ⟨camX, [7], noEffects⟩ ∧
    (Camera.processMessage camX [7] (.getCameraFunctionality "cam1")).eff.responses =
      [("cam1", RespData.functionality ⟨"cam1", "cam1"⟩)] :=
  ⟨((identity_addressing camX [7] "cam2").1 (by decide)).1,
   (identity_addressing camX [7] "cam1").2 rfl⟩

/-- C7: the "old parameters" response of a "new parameters" message holds a
snapshot cell that is distinct from the driver's live parameter cell, whose
content equals the live parameters as they were before the apply, and which
is unchanged by any later mutation of the live parameters (the apply itself
included). -/
theorem oldParameters_deep_copy (cam : Camera) (h : Heap)
    (ps : ParameterSet) (p : ParamData)
    (hp : pget ps cam.module_name = some p)
    (hr : cam.camera_control.paramsRef < h.length) :
    (cam.processMessage h (.newParameters ps)).eff.responses.head? =
      some (cam.module_name, RespData.oldParameters h.length) ∧
    h.length ≠ cam.camera_control.paramsRef ∧
    heapGet (cam.processMessage h (.newParameters ps)).heap h.length =
      heapGet h cam.camera_control.paramsRef ∧
    (∀ v : ParamData,
      heapGet (heapSet (cam.processMessage h (.newParameters ps)).heap
          cam.camera_control.paramsRef v) h.length =
        heapGet (cam.processMessage h (.newParameters ps)).heap h.length) := by
  have hred : cam.processMessage h (.newParameters ps) =
      ⟨cam,
       heapSet (h ++ [heapGet h cam.camera_control.paramsRef])
         cam.camera_control.paramsRef p,
       ⟨[(cam.module_name, RespData.oldParameters h.length),
         (cam.module_name, RespData.newParameters cam.camera_control.paramsRef)],
        [],
        [(DriverOp.getParameters, true), (DriverOp.newParameters p, true),
         (DriverOp.getParameters, true)], 1⟩⟩ := by
    simp [Camera.processMessage, hp, alloc, CameraControl.newParameters]
  rw [hred]
  refine ⟨rfl, Nat.ne_of_gt hr, ?_, ?_⟩
  · rw [heapGet_heapSet_ne _ _ _ (Nat.ne_of_lt hr) p]
    exact heapGet_append_self h _
  · intro v
    exact heapGet_heapSet_ne _ _ _ (Nat.ne_of_lt hr) v

/-- Witness for C7 at a concrete input: the snapshot cell still holds the
pre-apply content after a further mutation of the live cell. -/
theorem oldParameters_deep_copy_witness :
    (Camera.processMessage camX [7]
        (HalMessage.newParameters [("cam1", 42)])).eff.responses.head? =
      some ("cam1", RespData.oldParameters 1) ∧
    (1 : Nat) ≠ 0 ∧
    heapGet (Camera.processMessage camX [7]
        (HalMessage.newParameters [("cam1", 42)])).heap 1 = heapGet [7] 0 ∧
    (∀ v : ParamData,
      heapGet (heapSet (Camera.processMessage camX [7]
          (HalMessage.newParameters [("cam1", 42)])).heap 0 v) 1 =
        heapGet (Camera.processMessage camX [7]
            (HalMessage.newParameters [("cam1", 42)])).heap 1) :=
  oldParameters_deep_copy camX [7] [("cam1", 42)] 42
    (by simp [pget, camX]) (by simp [camX, ccX])

/-- C8: a message of any type other than the nine handled ones leaves the
controller and the heap unchanged and produces no effect at all: no driver
call, no response, no emitted message, no task. -/
theorem unhandled_message_noop (cam : Camera) (h : Heap) (t : String)
    (_ht : t ∉ handledTypes) :
    cam.processMessage h (.unhandled t) = ⟨cam, h, noEffects⟩ := rfl

/-- Witness for C8 at a concrete unhandled type. -/
theorem unhandled_message_noop_witness :
    Camera.processMessage camX [7] (.unhandled "current parameters") =
      ⟨camX, [7], noEffects⟩ :=
  unhandled_message_noop camX [7] "current parameters" (by decide)

/-- C9: handling a "film timing" message never appends a response, whether
or not the `setFilmLength` task is scheduled. -/
theorem filmTiming_no_response (cam : Camera) (h : Heap)
    (fn : CameraFunctionality) :
    (cam.processMessage h (.filmTiming fn)).eff.responses = [] := by
  by_cases hc : fn.getTimeBase = cam.module_name
  · cases hfl : cam.film_length <;> simp [Camera.processMessage, hc, hfl, noEffects]
  · simp [Camera.processMessage, hc, noEffects]

/-- C10: only the "start film" and "stop film" message types can change
`film_length`: any message of another type leaves it exactly as it was. -/
theorem film_length_only_start_stop (cam : Camera) (h : Heap) (m : HalMessage)
    (h1 : m.mType ≠ "start film") (h2 : m.mType ≠ "stop film") :
    (cam.processMessage h m).cam.film_length = cam.film_length := by
  rw [processMessage_film_length]
  cases m with
  | startFilm fs => exact absurd rfl h1
  | stopFilm => exact absurd rfl h2
  | _ => rfl

/-- Witness for C10 at a concrete input. -/
theorem film_length_only_start_stop_witness :
    (Camera.processMessage ⟨"cam1", some 9, ccX⟩ [7]
        HalMessage.configure1).cam.film_length = some 9 :=
  film_length_only_start_stop ⟨"cam1", some 9, ccX⟩ [7] HalMessage.configure1
    (by decide) (by decide)

end StormControl
